import Mathlib

/-!
# Verification of the DiscordTranslationBot translation core (`src/index.js`)

Shallow embedding of the translation pipeline of the bot:

* `preProcessText` — the text normalizer (static phrase table);
* `translateDeepL` — the Primary (DeepL) provider adapter;
* `translateLibreAt` / `translateLibre` — the Pooled (LibreTranslate)
  provider adapter over an ordered endpoint pool;
* `translateGooglePublic` — the Last-Resort (public Google endpoint) adapter;
* `smartTranslate` — the fallback-chain orchestrator.

Network I/O is modelled by an explicit environment (`Env`): for each outbound
HTTP request the environment supplies its outcome — either a rejection of the
`fetch` promise itself (network failure, or the 8-second abort-timeout of the
Pooled tier) or a response record carrying the fields the code inspects
(`ok`, `status`, `content-type` header, body text, and the result of
`res.json()` abstracted to the concrete field the adapter reads).
JavaScript exceptions are modelled by `Except String`; the message strings
mirror the ones built in the source.  `smartTranslate` additionally returns
the list of adapter invocations it performed (in order, with their
arguments), which the source makes observable through its control flow;
this trace is what the call-count properties are stated on.
-/

set_option linter.unusedVariables false

namespace DiscordTranslationBot

/-- JavaScript truthiness of a possibly-absent string value
(`undefined`/`null` and `""` are falsy). -/
def jsTruthy : Option String → Bool
  | none => false
  | some s => !(s == "")

/-- JavaScript `a || b` where `a` is a possibly-absent string
(`undefined`/`null` or `""` fall through to `b`). -/
def jsOr : Option String → String → String
  | some s, b => if s == "" then b else s
  | none, b => b

/-- JavaScript `a || b` on two strings (`""` is falsy). -/
def jsStrOr (a b : String) : String :=
  if a == "" then b else a

/-- JavaScript `s.toLowerCase()`.  ASCII case-mapping (the only case-mapping
the code's language codes, headers and phrase keys exercise), written over
the character list so it is structurally computable. -/
def jsToLower (s : String) : String :=
  ⟨s.data.map Char.toLower⟩

/-- JavaScript `s.toUpperCase()` (ASCII case-mapping, as `jsToLower`). -/
def jsToUpper (s : String) : String :=
  ⟨s.data.map Char.toUpper⟩

/-- JavaScript `s.trim()`: strip leading and trailing whitespace. -/
def jsTrim (s : String) : String :=
  ⟨((s.data.dropWhile Char.isWhitespace).reverse.dropWhile
      Char.isWhitespace).reverse⟩

/-- Does `sub` occur at the head of `s`? (helper for `strIncludes`). -/
def charsStartWith : List Char → List Char → Bool
  | [], _ => true
  | _ :: _, [] => false
  | a :: as, b :: bs => a == b && charsStartWith as bs

/-- Does `sub` occur somewhere in `s`? (helper for `strIncludes`). -/
def charsContain (s sub : List Char) : Bool :=
  match s with
  | [] => sub.isEmpty
  | _ :: rest => charsStartWith sub s || charsContain rest sub

/-- JavaScript `s.includes(sub)`: `sub` occurs as a substring of `s`. -/
def strIncludes (s sub : String) : Bool :=
  charsContain s.data sub.data

/-- Outcome of one `fetch` call: either the promise rejected (network error,
or an `AbortController` timeout), or a response of shape `ρ` arrived. -/
inductive FetchResult (ρ : Type) where
  | fetchError (msg : String)
  | response (r : ρ)

/-- The phrase table of `preProcessText` (`src/index.js` lines 69–77),
as the literal key/value pairs of the `Map` constructor, in order. -/
def phraseDict : List (String × String) :=
  [("もし もし", "hello"),
   ("もしもし", "hello"),
   ("こんにちは", "hello"),
   ("こんばんは", "good evening"),
   ("ありがとう", "thank you"),
   ("afrikaans dankie", "thank you"),
   ("dankie", "thank you")]

/-- `preProcessText` (`src/index.js` lines 67–79): looks up the trimmed,
lowercased input in the phrase table and returns `dict.get(t) || text`.
(`(text || '')` in the source only guards a nullish argument; the argument
is always a string here, and for `text = ""` both sides trim to `""`.) -/
def preProcessText (text : String) : String :=
  let t := jsToLower (jsTrim text)
  jsOr (phraseDict.lookup t) text

/-- `DEEPL_SUPPORTED_TARGETS` (`src/index.js` lines 36–40); the source
comment notes `ZH-TW` is left out deliberately to force the fallback. -/
def DEEPL_SUPPORTED_TARGETS : List String :=
  ["BG","CS","DA","DE","EL","EN","EN-GB","EN-US","ES","ET","FI","FR","HU",
   "ID","IT","JA","KO","LT","LV","NB","NL","PL","PT","PT-PT","PT-BR","RO",
   "RU","SK","SL","SV","TR","UK","ZH"]

/-- Response of the DeepL endpoint as `translateDeepL` inspects it:
`ok`, `status`, and `res.json()` abstracted to either a parse failure or the
value of `data?.translations?.[0]?.text` (`none` when the optional chain hits
a missing piece). -/
structure DeepLResp where
  ok : Bool
  status : Nat
  jsonParse : Except String (Option String)

/-- `translateDeepL` (`src/index.js` lines 89–104) over an abstract fetch
outcome: throws `DeepL <status>` on `!res.ok`, propagates a `res.json()`
failure, and otherwise returns `data?.translations?.[0]?.text || text`. -/
def translateDeepL (net : FetchResult DeepLResp) (text target : String) :
    Except String String :=
  match net with
  | .fetchError m => .error m
  | .response res =>
    if !res.ok then
      .error ("DeepL " ++ toString res.status)
    else
      match res.jsonParse with
      | .error e => .error e
      | .ok field => .ok (jsOr field text)

/-- Response of one LibreTranslate endpoint as `translateLibreAt` inspects
it: `ok`, `status`, the `content-type` header (`none` when absent), the body
text used for error excerpts, and `res.json()` abstracted to either a parse
failure or the value of `data?.translatedText`. -/
structure LibreResp where
  ok : Bool
  status : Nat
  contentType : Option String
  bodyText : String
  jsonParse : Except String (Option String)

/-- `translateLibreAt` (`src/index.js` lines 107–143) over an abstract fetch
outcome for one endpoint.  A fetch rejection (network failure or the 8 s
abort) propagates; `!res.ok`, a non-JSON `content-type`, and a JSON parse
failure each throw with the messages built in the source; otherwise the
result is `data?.translatedText || text`. -/
def translateLibreAt (net : FetchResult LibreResp) (baseUrl text toLang : String) :
    Except String String :=
  match net with
  | .fetchError m => .error m
  | .response res =>
    if !res.ok then
      .error ("Libre " ++ toString res.status ++ " @ " ++ baseUrl ++ " — "
              ++ res.bodyText.take 120)
    else
      let ct := jsToLower (res.contentType.getD "")
      if !strIncludes ct "application/json" then
        .error ("Libre invalid content-type (" ++ ct ++ ") @ " ++ baseUrl
                ++ " — " ++ res.bodyText.take 80)
      else
        match res.jsonParse with
        | .error _ =>
          .error ("Libre JSON parse fail @ " ++ baseUrl ++ " — "
                  ++ res.bodyText.take 120)
        | .ok field => .ok (jsOr field text)

/-- The slice of the nested-array Google response the code reads:
`json?.[0]` is `none` when absent, otherwise a list of segments; each
segment is `none` when nullish, otherwise its list of elements (the
translated strings). -/
abbrev GoogleJson := Option (List (Option (List String)))

/-- Response of the public Google endpoint as `translateGooglePublic`
inspects it. -/
structure GoogleResp where
  ok : Bool
  status : Nat
  jsonParse : Except String GoogleJson

/-- JavaScript `arr.join(' ')` on a list of strings. -/
def joinSpace : List String → String
  | [] => ""
  | [x] => x
  | x :: rest => x ++ " " ++ joinSpace rest

/-- The chunk extraction of `translateGooglePublic` (`src/index.js` line
166): `(json?.[0] || []).map(seg => seg?.[0]).filter(Boolean)` — first
element of each segment, dropping missing (`none`) and falsy (`""`) ones. -/
def googleChunks (j : GoogleJson) : List String :=
  ((j.getD []).map (fun seg => seg.bind List.head?)).filterMap
    (fun o =>
      match o with
      | some s => if s == "" then none else some s
      | none => none)

/-- `translateGooglePublic` (`src/index.js` lines 160–168) over an abstract
fetch outcome: throws `Google <status>` on `!res.ok`, propagates a
`res.json()` failure, and otherwise returns `chunks.join(' ') || text`. -/
def translateGooglePublic (net : FetchResult GoogleResp) (text toLang : String) :
    Except String String :=
  match net with
  | .fetchError m => .error m
  | .response res =>
    if !res.ok then
      .error ("Google " ++ toString res.status)
    else
      match res.jsonParse with
      | .error e => .error e
      | .ok j => .ok (jsStrOr (joinSpace (googleChunks j)) text)

/-- The request-scoped environment of one `smartTranslate` call: the
configuration the module reads from `process.env` and, for each request the
adapters may issue, the network's outcome. `libre` is keyed by the endpoint
base URL, since the Pooled tier issues one request per endpoint. -/
structure Env where
  DEEPL_KEY : Option String
  LIBRE_ENDPOINTS : List String
  deepl : FetchResult DeepLResp
  libre : String → FetchResult LibreResp
  google : FetchResult GoogleResp

/-- The loop of `translateLibre` (`src/index.js` lines 147–156): walk the
endpoint list in order, returning the first per-endpoint success, keeping
the latest failure in `lastErr`; when the list is exhausted, throw
`lastErr || new Error('Nenhum endpoint LibreTranslate disponível')`.
The second component records the endpoints actually attempted, in order. -/
def translateLibreGo (net : String → FetchResult LibreResp) (text toLang : String) :
    List String → Option String → Except String String × List String
  | [], lastErr =>
    (.error (lastErr.getD "Nenhum endpoint LibreTranslate disponível"), [])
  | base :: rest, lastErr =>
    match translateLibreAt (net base) base text toLang with
    | .ok s => (.ok s, [base])
    | .error e =>
      let r := translateLibreGo net text toLang rest (some e)
      (r.1, base :: r.2)

/-- `translateLibre` (`src/index.js` lines 145–157): iterate the configured
endpoint pool (defaulting to the single public instance when the pool is
empty, as `LIBRE_ENDPOINTS.length ? LIBRE_ENDPOINTS : [...]` does). -/
def translateLibre (env : Env) (text toLang : String) :
    Except String String × List String :=
  let list :=
    if env.LIBRE_ENDPOINTS.isEmpty then ["https://libretranslate.de"]
    else env.LIBRE_ENDPOINTS
  translateLibreGo env.libre text toLang list none

/-- One adapter invocation performed by the orchestrator, with the arguments
it was given. -/
inductive Call where
  | primary (text target : String)
  | pooled (text toBase : String)
  | lastResort (text toBase : String)
  deriving DecidableEq, Repr

/-- `targetDeepL.split('-')[0].toLowerCase()` (`src/index.js` line 173):
`split('-')[0]` is the prefix of the code before its first `'-'` (the
whole code when it has none), which is then lowercased. -/
def baseCode (targetDeepL : String) : String :=
  jsToLower ⟨targetDeepL.data.takeWhile (fun c => !(c == '-'))⟩

/-- Tiers 2 and 3 of `smartTranslate` (`src/index.js` lines 182–192):
attempt the Pooled tier, then the Last-Resort tier, and on total failure
return the (already normalized) text.  `trace` carries the invocations
already performed by tier 1. -/
def smartTranslateFallback (env : Env) (text targetBase : String)
    (trace : List Call) : String × List Call :=
  match (translateLibre env text targetBase).1 with
  | .ok s => (s, trace ++ [.pooled text targetBase])
  | .error _ =>
    match translateGooglePublic env.google text targetBase with
    | .ok s =>
      (s, trace ++ [.pooled text targetBase, .lastResort text targetBase])
    | .error _ =>
      (text, trace ++ [.pooled text targetBase, .lastResort text targetBase])

/-- `smartTranslate` (`src/index.js` lines 171–193): normalize, derive the
base code, attempt DeepL when `DEEPL_KEY` is truthy and the uppercased
target is in the supported set, then fall through the lower tiers.  Returns
the resulting string together with the ordered adapter-invocation trace. -/
def smartTranslate (env : Env) (original targetDeepL : String) :
    String × List Call :=
  let text := preProcessText original
  let targetBase := baseCode targetDeepL
  if jsTruthy env.DEEPL_KEY
      && DEEPL_SUPPORTED_TARGETS.contains (jsToUpper targetDeepL) then
    match translateDeepL env.deepl text targetDeepL with
    | .ok s => (s, [.primary text targetDeepL])
    | .error _ =>
      smartTranslateFallback env text targetBase [.primary text targetDeepL]
  else
    smartTranslateFallback env text targetBase []

/-- `Except` success as a boolean, for stating which endpoint attempts
succeed. -/
def isOkB : Except String String → Bool
  | .ok _ => true
  | .error _ => false

/-! ## Helper lemmas -/

theorem phraseDict_lookup_mem (k v : String)
    (h : phraseDict.lookup k = some v) :
    v = "hello" ∨ v = "good evening" ∨ v = "thank you" := by
  simp only [phraseDict, List.lookup] at h
  repeat' split at h
  all_goals simp_all

theorem phraseDict_lookup_ne_empty (k v : String)
    (h : phraseDict.lookup k = some v) : v ≠ "" := by
  rcases phraseDict_lookup_mem k v h with h' | h' | h' <;> simp [h']

theorem preProcessText_of_lookup_some (x v : String)
    (h : phraseDict.lookup (jsToLower (jsTrim x)) = some v) :
    preProcessText x = v := by
  have hne : v ≠ "" := phraseDict_lookup_ne_empty _ _ h
  simp [preProcessText, h, jsOr, hne]

theorem preProcessText_of_lookup_none (x : String)
    (h : phraseDict.lookup (jsToLower (jsTrim x)) = none) :
    preProcessText x = x := by
  simp [preProcessText, h, jsOr]

/-! ## C1 — total availability of the orchestrator -/

/-- C1.  `smartTranslate` is total by construction (it is a plain function
into `String × List Call`, with every adapter failure absorbed by a
`catch`-branch of the source); and when the Primary, Pooled and Last-Resort
adapters all fail, its string result is the normalized original text
`preProcessText original`. -/
theorem smartTranslate_total_fallback (env : Env) (original target : String)
    (h1 : ∃ e, translateDeepL env.deepl (preProcessText original) target
            = .error e)
    (h2 : ∃ e, (translateLibre env (preProcessText original)
            (baseCode target)).1 = .error e)
    (h3 : ∃ e, translateGooglePublic env.google (preProcessText original)
            (baseCode target) = .error e) :
    (smartTranslate env original target).1 = preProcessText original := by
  obtain ⟨e1, h1⟩ := h1
  obtain ⟨e2, h2⟩ := h2
  obtain ⟨e3, h3⟩ := h3
  simp only [smartTranslate, smartTranslateFallback, h1, h2, h3]
  split <;> rfl

/-- An environment in which every outbound request fails at the network
level. -/
def envAllFail : Env where
  DEEPL_KEY := some "secret-key"
  LIBRE_ENDPOINTS := ["https://libretranslate.de", "http://localhost:5000"]
  deepl := .fetchError "deepl net down"
  libre := fun _ => .fetchError "libre net down"
  google := .fetchError "google net down"

theorem smartTranslate_total_fallback_witness :
    (smartTranslate envAllFail "Olá mundo" "EN-US").1
      = preProcessText "Olá mundo" :=
  smartTranslate_total_fallback envAllFail "Olá mundo" "EN-US"
    ⟨"deepl net down", rfl⟩ ⟨"libre net down", rfl⟩ ⟨"google net down", rfl⟩

/-! ## C3 — strict precedence of the Primary tier -/

/-- C3.  When a Primary credential is configured (truthy `DEEPL_KEY`), the
uppercased target is in the supported set, and the Primary adapter succeeds
with `s`, the orchestrator returns `s` and its invocation trace is exactly
the single Primary call: the Pooled and Last-Resort adapters are not
invoked. -/
theorem smartTranslate_primary_precedence (env : Env)
    (original target s : String)
    (hk : jsTruthy env.DEEPL_KEY = true)
    (hs : DEEPL_SUPPORTED_TARGETS.contains (jsToUpper target) = true)
    (hok : translateDeepL env.deepl (preProcessText original) target
            = .ok s) :
    smartTranslate env original target
      = (s, [Call.primary (preProcessText original) target]) := by
  simp only [smartTranslate]
  rw [hk, hs, hok]
  rfl

/-- An environment whose Primary tier answers successfully. -/
def envPrimaryOk : Env where
  DEEPL_KEY := some "secret-key"
  LIBRE_ENDPOINTS := ["https://libretranslate.de"]
  deepl := .response ⟨true, 200, .ok (some "Hallo Welt")⟩
  libre := fun _ => .fetchError "unused"
  google := .fetchError "unused"

theorem smartTranslate_primary_precedence_witness :
    smartTranslate envPrimaryOk "hello world" "DE"
      = ("Hallo Welt", [Call.primary "hello world" "DE"]) :=
  smartTranslate_primary_precedence envPrimaryOk "hello world" "DE"
    "Hallo Welt" rfl (by decide) rfl

/-! ## C7 — the normalizer contract -/

/-- C7.  `preProcessText` is total (a plain `String → String` function);
its lookup key is the input trimmed and lowercased; on a table hit it
returns the table's replacement value verbatim, and on a miss it returns
the original input unchanged. -/
theorem preProcessText_contract (text : String) :
    (∀ v, phraseDict.lookup (jsToLower (jsTrim text)) = some v →
        preProcessText text = v) ∧
    (phraseDict.lookup (jsToLower (jsTrim text)) = none →
        preProcessText text = text) :=
  ⟨fun v hv => preProcessText_of_lookup_some text v hv,
   fun h => preProcessText_of_lookup_none text h⟩

theorem preProcessText_contract_witness :
    preProcessText "  ありがとう " = "thank you" ∧
    preProcessText "bom dia" = "bom dia" :=
  ⟨(preProcessText_contract "  ありがとう ").1 "thank you" (by decide),
   (preProcessText_contract "bom dia").2 (by decide)⟩

/-! ## C9 — idempotence of the normalizer -/

/-- C9.  `preProcessText` is idempotent, and indeed no replacement value of
the phrase table, once trimmed and lowercased, is itself a table key (so a
second pass over a first pass's output is a no-op). -/
theorem preProcessText_idempotent :
    (∀ x : String, preProcessText (preProcessText x) = preProcessText x) ∧
    (∀ p ∈ phraseDict,
        phraseDict.lookup (jsToLower (jsTrim p.2)) = none) := by
  constructor
  · intro x
    cases h : phraseDict.lookup (jsToLower (jsTrim x)) with
    | none =>
      have h' := preProcessText_of_lookup_none x h
      rw [h']
      exact h'
    | some v =>
      rw [preProcessText_of_lookup_some x v h]
      rcases phraseDict_lookup_mem _ _ h with h' | h' | h' <;>
        subst h' <;> decide
  · decide

theorem preProcessText_idempotent_witness :
    preProcessText (preProcessText "こんばんは") = preProcessText "こんばんは" ∧
    phraseDict.lookup (jsToLower (jsTrim ("こんばんは", "good evening").2))
      = none :=
  ⟨preProcessText_idempotent.1 "こんばんは",
   preProcessText_idempotent.2 ("こんばんは", "good evening") (by decide)⟩

/-! ## C5 — supported-set exclusion forces fallback for `ZH-TW` -/

/-- C5.  For target `"ZH-TW"` the Primary adapter is never invoked —
whatever the credential configuration — because `"ZH-TW"` is not in
`DEEPL_SUPPORTED_TARGETS`; the invocation trace starts with (and the
Primary tier never appears in) the Pooled attempt at base code `"zh"`. -/
theorem smartTranslate_zhtw_skips_primary (env : Env) (original : String) :
    DEEPL_SUPPORTED_TARGETS.contains (jsToUpper "ZH-TW") = false ∧
    baseCode "ZH-TW" = "zh" ∧
    ((smartTranslate env original "ZH-TW").2 =
        [Call.pooled (preProcessText original) "zh"] ∨
     (smartTranslate env original "ZH-TW").2 =
        [Call.pooled (preProcessText original) "zh",
         Call.lastResort (preProcessText original) "zh"]) := by
  refine ⟨by decide, by decide, ?_⟩
  have hc : (jsTruthy env.DEEPL_KEY
      && DEEPL_SUPPORTED_TARGETS.contains (jsToUpper "ZH-TW")) = false := by
    have h : DEEPL_SUPPORTED_TARGETS.contains (jsToUpper "ZH-TW") = false :=
      by decide
    rw [h, Bool.and_false]
  have hb : baseCode "ZH-TW" = "zh" := by decide
  simp only [smartTranslate, hc, Bool.false_eq_true, if_false, hb]
  unfold smartTranslateFallback
  cases hL : (translateLibre env (preProcessText original) "zh").1 with
  | ok s =>
    exact Or.inl rfl
  | error e =>
    cases hG : translateGooglePublic env.google (preProcessText original)
        "zh" with
    | ok s =>
      exact Or.inr rfl
    | error e2 =>
      exact Or.inr rfl

/-! ## C6 — base-code derivation and fallback on Primary failure -/

/-- C6.  The base code handed to the lower tiers is the target code
truncated at its first `-` separator and lowercased (`baseCode`, e.g.
`"PT-PT" ↦ "pt"`); and whenever the Primary tier is eligible (truthy key,
supported target) but its adapter fails, the Pooled adapter is attempted
next with exactly that base code. -/
theorem smartTranslate_fallback_on_primary_failure (env : Env)
    (original target : String)
    (hk : jsTruthy env.DEEPL_KEY = true)
    (hs : DEEPL_SUPPORTED_TARGETS.contains (jsToUpper target) = true)
    (hf : ∃ e, translateDeepL env.deepl (preProcessText original) target
            = .error e) :
    baseCode "PT-PT" = "pt" ∧
    (smartTranslate env original target).2.take 2 =
      [Call.primary (preProcessText original) target,
       Call.pooled (preProcessText original) (baseCode target)] := by
  obtain ⟨e, hf⟩ := hf
  refine ⟨by decide, ?_⟩
  simp only [smartTranslate]
  rw [hk, hs, hf]
  show (smartTranslateFallback env (preProcessText original)
      (baseCode target) [Call.primary (preProcessText original) target]).2.take 2
    = _
  unfold smartTranslateFallback
  cases hL : (translateLibre env (preProcessText original)
      (baseCode target)).1 with
  | ok s =>
    rfl
  | error e2 =>
    cases hG : translateGooglePublic env.google (preProcessText original)
        (baseCode target) with
    | ok s =>
      rfl
    | error e3 =>
      rfl

theorem smartTranslate_fallback_on_primary_failure_witness :
    baseCode "PT-PT" = "pt" ∧
    (smartTranslate envAllFail "bom dia" "PT-PT").2.take 2 =
      [Call.primary "bom dia" "PT-PT", Call.pooled "bom dia" "pt"] :=
  smartTranslate_fallback_on_primary_failure envAllFail "bom dia" "PT-PT"
    rfl (by decide) ⟨"deepl net down", rfl⟩

/-! ## C2 — malformed-but-successful responses degrade and short-circuit -/

/-- C2.  A tier whose HTTP call succeeds (`ok` status) but whose body lacks
the expected translated-text field returns its input text instead of
failing: so for the Primary adapter (`translations[0].text` missing) and
for a Pooled endpoint (`translatedText` missing).  Such a degrade counts as
the tier's success, so the orchestrator returns it at once: with the
Primary tier eligible, the trace is the single Primary call; with the
Primary tier skipped, a malformed-200 first Pooled endpoint ends the trace
at the Pooled call. -/
theorem malformed200_degrade :
    (∀ (r : DeepLResp) (text target : String),
        r.ok = true → r.jsonParse = .ok none →
        translateDeepL (.response r) text target = .ok text) ∧
    (∀ (r : LibreResp) (baseUrl text toLang : String),
        r.ok = true →
        strIncludes (jsToLower (r.contentType.getD "")) "application/json"
          = true →
        r.jsonParse = .ok none →
        translateLibreAt (.response r) baseUrl text toLang = .ok text) ∧
    (∀ (env : Env) (original target : String) (r : DeepLResp),
        jsTruthy env.DEEPL_KEY = true →
        DEEPL_SUPPORTED_TARGETS.contains (jsToUpper target) = true →
        env.deepl = .response r → r.ok = true → r.jsonParse = .ok none →
        smartTranslate env original target =
          (preProcessText original,
           [Call.primary (preProcessText original) target])) ∧
    (∀ (env : Env) (original target b : String) (rest : List String)
        (r : LibreResp),
        jsTruthy env.DEEPL_KEY = false →
        env.LIBRE_ENDPOINTS = b :: rest →
        env.libre b = .response r →
        r.ok = true →
        strIncludes (jsToLower (r.contentType.getD "")) "application/json"
          = true →
        r.jsonParse = .ok none →
        smartTranslate env original target =
          (preProcessText original,
           [Call.pooled (preProcessText original) (baseCode target)])) := by
  have hD : ∀ (r : DeepLResp) (text target : String),
      r.ok = true → r.jsonParse = .ok none →
      translateDeepL (.response r) text target = .ok text := by
    intro r text target hok hj
    simp [translateDeepL, hok, hj, jsOr]
  have hLA : ∀ (r : LibreResp) (baseUrl text toLang : String),
      r.ok = true →
      strIncludes (jsToLower (r.contentType.getD "")) "application/json"
        = true →
      r.jsonParse = .ok none →
      translateLibreAt (.response r) baseUrl text toLang = .ok text := by
    intro r baseUrl text toLang hok hct hj
    simp [translateLibreAt, hok, hct, hj, jsOr]
  refine ⟨hD, hLA, ?_, ?_⟩
  · intro env original target r hk hs hdeepl hok hj
    have hres : translateDeepL env.deepl (preProcessText original) target
        = .ok (preProcessText original) := by
      rw [hdeepl]
      exact hD r (preProcessText original) target hok hj
    simp only [smartTranslate]
    rw [hk, hs, hres]
    rfl
  · intro env original target b rest r hk hends hlibre hok hct hj
    have hat : translateLibreAt (env.libre b) b (preProcessText original)
        (baseCode target) = .ok (preProcessText original) := by
      rw [hlibre]
      exact hLA r b (preProcessText original) (baseCode target) hok hct hj
    have hpool : translateLibre env (preProcessText original)
        (baseCode target) = (.ok (preProcessText original), [b]) := by
      unfold translateLibre
      rw [hends]
      show translateLibreGo env.libre (preProcessText original)
          (baseCode target) (b :: rest) none = _
      simp only [translateLibreGo]
      rw [hat]
    simp only [smartTranslate]
    rw [hk]
    simp only [Bool.false_and, Bool.false_eq_true, if_false]
    unfold smartTranslateFallback
    rw [hpool]
    rfl

/-- A Primary-tier response that is successful but lacks the expected
field. -/
def deeplMalformed : DeepLResp := ⟨true, 200, .ok none⟩

/-- A Pooled-tier response that is successful JSON but lacks
`translatedText`. -/
def libreMalformed : LibreResp :=
  ⟨true, 200, some "application/json", "{}", .ok none⟩

/-- An environment where the Primary tier is eligible and answers a
malformed 200. -/
def envMalformedPrimary : Env where
  DEEPL_KEY := some "secret-key"
  LIBRE_ENDPOINTS := ["https://libretranslate.de"]
  deepl := .response deeplMalformed
  libre := fun _ => .fetchError "unused"
  google := .fetchError "unused"

/-- An environment with no Primary credential whose first Pooled endpoint
answers a malformed 200. -/
def envMalformedPooled : Env where
  DEEPL_KEY := none
  LIBRE_ENDPOINTS := ["https://libretranslate.de"]
  deepl := .fetchError "unused"
  libre := fun _ => .response libreMalformed
  google := .fetchError "unused"

theorem malformed200_degrade_witness :
    translateDeepL (.response deeplMalformed) "hola" "ES" = .ok "hola" ∧
    translateLibreAt (.response libreMalformed) "https://libretranslate.de"
      "hola" "es" = .ok "hola" ∧
    smartTranslate envMalformedPrimary "hola" "ES"
      = ("hola", [Call.primary "hola" "ES"]) ∧
    smartTranslate envMalformedPooled "hola" "ES"
      = ("hola", [Call.pooled "hola" "es"]) :=
  ⟨malformed200_degrade.1 deeplMalformed "hola" "ES" rfl rfl,
   malformed200_degrade.2.1 libreMalformed "https://libretranslate.de"
     "hola" "es" rfl (by decide) rfl,
   malformed200_degrade.2.2.1 envMalformedPrimary "hola" "ES" deeplMalformed
     rfl (by decide) rfl rfl rfl,
   malformed200_degrade.2.2.2 envMalformedPooled "hola" "ES"
     "https://libretranslate.de" [] libreMalformed rfl rfl rfl rfl
     (by decide) rfl⟩

/-! ## C10 — empty-string translations degrade like missing fields -/

/-- C10.  The degrade comparison of every tier is on JavaScript falsiness,
not mere field absence: a successful response whose translated-text field
is present but equal to `""` makes the Primary and Pooled adapters return
their input text, and the Last-Resort adapter returns its input text
whenever the joined surviving segments form the empty string. -/
theorem empty_translation_degrade :
    (∀ (r : DeepLResp) (text target : String),
        r.ok = true → r.jsonParse = .ok (some "") →
        translateDeepL (.response r) text target = .ok text) ∧
    (∀ (r : LibreResp) (baseUrl text toLang : String),
        r.ok = true →
        strIncludes (jsToLower (r.contentType.getD "")) "application/json"
          = true →
        r.jsonParse = .ok (some "") →
        translateLibreAt (.response r) baseUrl text toLang = .ok text) ∧
    (∀ (r : GoogleResp) (text toLang : String) (j : GoogleJson),
        r.ok = true → r.jsonParse = .ok j →
        joinSpace (googleChunks j) = "" →
        translateGooglePublic (.response r) text toLang = .ok text) := by
  refine ⟨?_, ?_, ?_⟩
  · intro r text target hok hj
    simp [translateDeepL, hok, hj, jsOr]
  · intro r baseUrl text toLang hok hct hj
    simp [translateLibreAt, hok, hct, hj, jsOr]
  · intro r text toLang j hok hj hjoin
    simp [translateGooglePublic, hok, hj, hjoin, jsStrOr]

theorem empty_translation_degrade_witness :
    translateDeepL (.response ⟨true, 200, .ok (some "")⟩) "oi" "PT-PT"
      = .ok "oi" ∧
    translateLibreAt
      (.response ⟨true, 200, some "application/json", "{}", .ok (some "")⟩)
      "https://libretranslate.de" "oi" "pt" = .ok "oi" ∧
    translateGooglePublic
      (.response ⟨true, 200, .ok (some [some [""], none])⟩) "oi" "pt"
      = .ok "oi" :=
  ⟨empty_translation_degrade.1 ⟨true, 200, .ok (some "")⟩ "oi" "PT-PT"
     rfl rfl,
   empty_translation_degrade.2.1
     ⟨true, 200, some "application/json", "{}", .ok (some "")⟩
     "https://libretranslate.de" "oi" "pt" rfl (by decide) rfl,
   empty_translation_degrade.2.2
     ⟨true, 200, .ok (some [some [""], none])⟩ "oi" "pt"
     (some [some [""], none]) rfl rfl rfl⟩

/-! ## C4 — Pooled-adapter exhaustion semantics -/

/-- Does the attempt at endpoint `x` fail? (the loop predicate of
`translateLibre`, named so the pool lemmas can speak about the failing
prefix of the pool). -/
def libreFails (net : String → FetchResult LibreResp)
    (text toLang x : String) : Bool :=
  !isOkB (translateLibreAt (net x) x text toLang)

theorem isOkB_false_error (x : Except String String)
    (h : isOkB x = false) : ∃ e, x = .error e := by
  cases x with
  | ok s => simp [isOkB] at h
  | error e => exact ⟨e, rfl⟩

theorem translateLibreGo_cons_error (net : String → FetchResult LibreResp)
    (text toLang a : String) (t : List String) (lastErr : Option String)
    (e : String)
    (he : translateLibreAt (net a) a text toLang = .error e) :
    translateLibreGo net text toLang (a :: t) lastErr
      = ((translateLibreGo net text toLang t (some e)).1,
         a :: (translateLibreGo net text toLang t (some e)).2) := by
  simp only [translateLibreGo]
  rw [he]

theorem translateLibreGo_prefix (net : String → FetchResult LibreResp)
    (text toLang : String) (l : List String) :
    ∀ lastErr, (translateLibreGo net text toLang l lastErr).2 <+: l := by
  induction l with
  | nil =>
    intro lastErr
    simp [translateLibreGo]
  | cons b rest ih =>
    intro lastErr
    simp only [translateLibreGo]
    cases h : translateLibreAt (net b) b text toLang with
    | ok s =>
      exact ⟨rest, rfl⟩
    | error e =>
      obtain ⟨t, ht⟩ := ih (some e)
      exact ⟨t, by simp [List.cons_append, ht]⟩

theorem translateLibreGo_first_success
    (net : String → FetchResult LibreResp) (text toLang : String)
    (l : List String) :
    ∀ lastErr b rest,
      l.dropWhile (libreFails net text toLang) = b :: rest →
      translateLibreGo net text toLang l lastErr =
        (translateLibreAt (net b) b text toLang,
         l.takeWhile (libreFails net text toLang) ++ [b]) := by
  induction l with
  | nil =>
    intro lastErr b rest h
    simp at h
  | cons a t ih =>
    intro lastErr b rest h
    cases ha : translateLibreAt (net a) a text toLang with
    | ok s =>
      have hpa : libreFails net text toLang a = false := by
        simp [libreFails, ha, isOkB]
      rw [List.dropWhile_cons, hpa] at h
      simp only [Bool.false_eq_true, if_false] at h
      obtain ⟨rfl, rfl⟩ := List.cons.inj h
      simp only [translateLibreGo]
      rw [List.takeWhile_cons, hpa]
      simp only [Bool.false_eq_true, if_false, List.nil_append]
      rw [ha]
    | error e =>
      have hpa : libreFails net text toLang a = true := by
        simp [libreFails, ha, isOkB]
      rw [List.dropWhile_cons, hpa] at h
      simp only [if_true] at h
      have hrec := ih (some e) b rest h
      rw [translateLibreGo_cons_error net text toLang a t lastErr e ha,
        hrec, List.takeWhile_cons, hpa]
      simp

theorem translateLibreGo_all_fail
    (net : String → FetchResult LibreResp) (text toLang : String) :
    ∀ (l : List String) (a : String) (lastErr : Option String),
      (∀ b ∈ a :: l, isOkB (translateLibreAt (net b) b text toLang)
        = false) →
      translateLibreGo net text toLang (a :: l) lastErr =
        (translateLibreAt (net ((a :: l).getLastD ""))
           ((a :: l).getLastD "") text toLang,
         a :: l) := by
  intro l
  induction l with
  | nil =>
    intro a lastErr hall
    obtain ⟨e, he⟩ :=
      isOkB_false_error (translateLibreAt (net a) a text toLang)
        (hall a (by simp))
    rw [translateLibreGo_cons_error net text toLang a [] lastErr e he]
    simp [translateLibreGo, he]
  | cons c u ih =>
    intro a lastErr hall
    obtain ⟨e, he⟩ :=
      isOkB_false_error (translateLibreAt (net a) a text toLang)
        (hall a (by simp))
    have hrec := ih c (some e)
      (fun b hb => hall b (List.mem_cons_of_mem a hb))
    rw [translateLibreGo_cons_error net text toLang a (c :: u) lastErr e he,
      hrec]
    simp

/-- C4.  With a nonempty configured pool: the endpoints attempted by
`translateLibre` form an in-order prefix of the pool (so each pool entry
is attempted at most once and in the fixed order); when the pool, read in
order, has a first endpoint `b` whose attempt succeeds, the result is
exactly `b`'s adapter result and the attempt list is the failing prefix
followed by `b` (later endpoints are not attempted); and when every
endpoint's attempt fails, every endpoint is attempted (each exactly once)
and the propagated result is the failure of the last endpoint. -/
theorem translateLibre_pool_exhaustion (env : Env) (text toLang : String)
    (hne : env.LIBRE_ENDPOINTS ≠ []) :
    ((translateLibre env text toLang).2 <+: env.LIBRE_ENDPOINTS) ∧
    (∀ b rest,
        env.LIBRE_ENDPOINTS.dropWhile (libreFails env.libre text toLang)
          = b :: rest →
        translateLibre env text toLang =
          (translateLibreAt (env.libre b) b text toLang,
           env.LIBRE_ENDPOINTS.takeWhile (libreFails env.libre text toLang)
             ++ [b])) ∧
    ((∀ b ∈ env.LIBRE_ENDPOINTS,
        isOkB (translateLibreAt (env.libre b) b text toLang) = false) →
      translateLibre env text toLang =
        (translateLibreAt (env.libre (env.LIBRE_ENDPOINTS.getLastD ""))
           (env.LIBRE_ENDPOINTS.getLastD "") text toLang,
         env.LIBRE_ENDPOINTS)) := by
  cases hE : env.LIBRE_ENDPOINTS with
  | nil => exact absurd hE hne
  | cons b0 t =>
    have hTL : translateLibre env text toLang
        = translateLibreGo env.libre text toLang (b0 :: t) none := by
      unfold translateLibre
      rw [hE]
      rfl
    refine ⟨?_, ?_, ?_⟩
    · rw [hTL]
      exact translateLibreGo_prefix env.libre text toLang (b0 :: t) none
    · intro b rest h
      rw [hTL]
      exact translateLibreGo_first_success env.libre text toLang (b0 :: t)
        none b rest h
    · intro hall
      rw [hTL]
      exact translateLibreGo_all_fail env.libre text toLang t b0 none hall

/-- A pool of three endpoints where `A` and `B` fail and `C` succeeds. -/
def envPool : Env where
  DEEPL_KEY := none
  LIBRE_ENDPOINTS := ["A", "B", "C"]
  deepl := .fetchError "unused"
  libre := fun b =>
    if b == "C" then
      .response ⟨true, 200, some "application/json", "", .ok (some "ciao")⟩
    else
      .fetchError ("down @ " ++ b)
  google := .fetchError "unused"

theorem translateLibre_pool_exhaustion_witness :
    translateLibre envPool "hi" "en" = (.ok "ciao", ["A", "B", "C"]) := by
  have h := (translateLibre_pool_exhaustion envPool "hi" "en"
      (by decide)).2.1 "C" [] (by decide)
  exact h.trans rfl

/-! ## C8 — Last-Resort extraction -/

/-- Modelled from the spec: the Last-Resort extraction as the spec words
it — take the first element of each segment of the first top-level array,
filter out empty or missing elements, and join the surviving elements with
a single space; when no elements survive, return the original text. -/
def lastResortExtractSpec (j : GoogleJson) (text : String) : String :=
  let surviving := (j.getD []).filterMap (fun seg =>
    match seg.bind List.head? with
    | some s => if s == "" then none else some s
    | none => none)
  if surviving = [] then text else joinSpace surviving

theorem googleChunks_eq_filterMap (j : GoogleJson) :
    googleChunks j = (j.getD []).filterMap (fun seg =>
      match seg.bind List.head? with
      | some s => if s == "" then none else some s
      | none => none) := by
  unfold googleChunks
  rw [List.filterMap_map]
  rfl

theorem googleChunks_ne_empty (j : GoogleJson) :
    ∀ s ∈ googleChunks j, s ≠ "" := by
  intro s hs
  unfold googleChunks at hs
  rw [List.mem_filterMap] at hs
  obtain ⟨o, ho, heq⟩ := hs
  rcases o with _ | a
  · simp at heq
  · by_cases ha : a = ""
    · subst ha
      simp at heq
    · have h2 : some a = some s := by simpa [ha] using heq
      obtain rfl := Option.some.inj h2
      exact ha

theorem joinSpace_ne_empty (x : String) (t : List String)
    (h : ∀ y ∈ x :: t, y ≠ "") : joinSpace (x :: t) ≠ "" := by
  cases t with
  | nil =>
    simpa [joinSpace] using h x (by simp)
  | cons y u =>
    intro hc
    have hx : x ++ " " ++ joinSpace (y :: u) = "" := hc
    have hlen := congrArg String.length hx
    have h1 : (" " : String).length = 1 := rfl
    have h0 : ("" : String).length = 0 := rfl
    rw [String.length_append, String.length_append, h1, h0] at hlen
    omega

theorem joinSpace_eq_empty_iff (l : List String) (h : ∀ y ∈ l, y ≠ "") :
    joinSpace l = "" ↔ l = [] := by
  cases l with
  | nil => simp [joinSpace]
  | cons x t =>
    constructor
    · intro hc
      exact absurd hc (joinSpace_ne_empty x t h)
    · intro hf
      cases hf

/-- C8.  On a successful Last-Resort response whose body parses to the
nested array `j`, `translateGooglePublic` returns exactly the spec-worded
extraction `lastResortExtractSpec`: first element of each segment of the
first top-level array, empty/missing elements filtered out, survivors
joined with a single space, and the original text when nothing survives. -/
theorem translateGooglePublic_extraction (r : GoogleResp)
    (text toLang : String) (j : GoogleJson)
    (hok : r.ok = true) (hj : r.jsonParse = .ok j) :
    translateGooglePublic (.response r) text toLang
      = .ok (lastResortExtractSpec j text) := by
  simp only [translateGooglePublic, hok, hj, Bool.not_true,
    Bool.false_eq_true, if_false]
  simp only [lastResortExtractSpec]
  rw [← googleChunks_eq_filterMap]
  by_cases hnil : googleChunks j = []
  · rw [hnil]
    simp [joinSpace, jsStrOr]
  · have hne : joinSpace (googleChunks j) ≠ "" := fun hc =>
      hnil ((joinSpace_eq_empty_iff _ (googleChunks_ne_empty j)).1 hc)
    rw [if_neg hnil]
    simp [jsStrOr, hne]

/-- A sample Last-Resort payload: two real segments, one nullish segment,
one segment whose first element is empty. -/
def googleJsonSample : GoogleJson :=
  some [some ["Hello ", "x"], none, some [""], some ["world"]]

theorem translateGooglePublic_extraction_witness :
    translateGooglePublic (.response ⟨true, 200, .ok googleJsonSample⟩)
      "texto" "en" = .ok (lastResortExtractSpec googleJsonSample "texto") :=
  translateGooglePublic_extraction ⟨true, 200, .ok googleJsonSample⟩
    "texto" "en" googleJsonSample rfl rfl

end DiscordTranslationBot
